import Mathlib

/-!
Verification of the edge-computing scheduler/load-balancer/optimizer core of
the DigitalStore repository, shallowly embedded from the JavaScript source
(classes VentaroEdgeComputing, EdgeLoadBalancer, EdgeTaskScheduler,
EdgeOptimizer).

Numbers that are JavaScript floats (CPU/memory percentages, scores) are
modelled as rationals; JavaScript Map objects are modelled as association
lists in insertion order, with Map.get as first-match lookup.
-/

/-- First-match lookup in an association list: the JavaScript Map.get. -/
def mapGet {α : Type} (l : List (String × α)) (k : String) : Option α :=
  match l with
  | [] => none
  | (k1, v) :: rest => if k = k1 then some v else mapGet rest k

/-- Remote-node load record kept in EdgeLoadBalancer.nodeLoads. -/
structure NodeLoad where
  cpu : ℚ
  memory : ℚ
  queue : ℚ

/-- The capability record returned by VentaroEdgeComputing.getNodeCapabilities:
lists of AI model names, processing queue types, protocols and features. -/
structure Capabilities where
  ai : List String
  processing : List String
  protocols : List String
  features : List String
deriving DecidableEq

/-- Options attached to a task at submission (submitTask): the fields the
scheduler and queue adapter read. -/
structure TaskOptions where
  priority : Option String
  nodeAffinity : Option String

/-- A task as built by submitTask: its type string and its options. -/
structure EdgeTask where
  type : String
  options : TaskOptions

/-- Snapshot of the mutable state of a VentaroEdgeComputing instance that the
scheduling, scoring and optimizing code reads:
nodeId is config.nodeId; meshClients maps connected peer ids to the peer's
advertised capability record; cpuUsage and memoryUsage are the metrics
fields; totalmem is os.totalmem(); processingQueues maps queue type to the
current getWaiting() length; nodeLoads is the balancer's remote-load map;
aiModelKeys are the keys of aiModels; clusterEnabled, isMaster, workers,
nextWorkerId and numCpus (os.cpus().length) serve the cluster optimizer. -/
structure EdgeState where
  nodeId : String
  meshClients : List (String × Capabilities)
  cpuUsage : ℚ
  memoryUsage : ℚ
  totalmem : ℚ
  processingQueues : List (String × Nat)
  nodeLoads : List (String × NodeLoad)
  aiModelKeys : List String
  clusterEnabled : Bool
  isMaster : Bool
  workers : List Nat
  nextWorkerId : Nat
  numCpus : Nat

/-- VentaroEdgeComputing.getNodeCapabilities: the local node's advertised
capability record. -/
def getNodeCapabilities (s : EdgeState) : Capabilities :=
  { ai := s.aiModelKeys
    processing := s.processingQueues.map (fun p => p.1)
    protocols := ["websocket", "redis", "http"]
    features := ["clustering", "mesh-networking", "real-time-processing"] }

/-- A capability record advertises a task type when the type occurs in its
ai or processing list (queue types are the processing capabilities). -/
def advertises (c : Capabilities) (ty : String) : Bool :=
  c.ai.contains ty || c.processing.contains ty

/-- A node is live when it is the local node or a currently connected mesh
client (connectToEdgeNode inserts on open, deletes on close). -/
def nodeAlive (s : EdgeState) (nid : String) : Bool :=
  nid == s.nodeId || (s.meshClients.map (fun p => p.1)).contains nid

/-- Whether a given node advertises a task type: the local node through
getNodeCapabilities, a peer through the capability record stored with its
mesh connection. -/
def nodeAdvertises (s : EdgeState) (nid : String) (ty : String) : Bool :=
  if nid = s.nodeId then advertises (getNodeCapabilities s) ty
  else
    match mapGet s.meshClients nid with
    | some c => advertises c ty
    | none => false

/-- The nodes that are live and advertise the given task type. This is the
candidate set in the sense of the specification's listCandidates; the
selection code below never computes or consults it. -/
def liveCapableNodes (s : EdgeState) (ty : String) : List String :=
  (s.nodeId :: s.meshClients.map (fun p => p.1)).filter
    (fun n => nodeAlive s n && nodeAdvertises s n ty)

/-- EdgeLoadBalancer.calculateNodeScore: start from 100; for the local node
subtract metrics.cpuUsage, metrics.memoryUsage divided by os.totalmem()
times 100, and the waiting length of the queue for the task's type when
that queue exists; for a remote node subtract the recorded load (default
cpu 50, memory 50, queue 0) and a fixed network penalty of 10; finally
floor at 0 with Math.max. -/
def calculateNodeScore (s : EdgeState) (nid : String) (t : EdgeTask) : ℚ :=
  let base : ℚ := 100
  let score :=
    if nid = s.nodeId then
      let afterMem := base - s.cpuUsage - s.memoryUsage / s.totalmem * 100
      match mapGet s.processingQueues t.type with
      | some waiting => afterMem - (waiting : ℚ)
      | none => afterMem
    else
      let load := (mapGet s.nodeLoads nid).getD ⟨50, 50, 0⟩
      base - load.cpu - load.memory - load.queue - 10
  max 0 score

/-- The selection loop of EdgeLoadBalancer.selectOptimalNode: walk the list
of candidate ids keeping the best node seen so far, replacing it only on a
strictly greater score. -/
def selectLoop (score : String → ℚ) :
    List String → String → ℚ → String
  | [], best, _ => best
  | n :: rest, best, bestScore =>
    if bestScore < score n then selectLoop score rest n (score n)
    else selectLoop score rest best bestScore

/-- EdgeLoadBalancer.selectOptimalNode: the candidate ids are the mesh
client keys with the local node id pushed at the end; the running best
starts at the local node and its score. -/
def selectOptimalNode (s : EdgeState) (t : EdgeTask) : String :=
  let availableNodes := s.meshClients.map (fun p => p.1) ++ [s.nodeId]
  selectLoop (fun n => calculateNodeScore s n t) availableNodes
    s.nodeId (calculateNodeScore s s.nodeId t)

/-- EdgeTaskScheduler.scheduleTask, parametrized over the node-selection
function it delegates to (the source calls this.loadBalancer's
selectOptimalNode there): when task.options.nodeAffinity is truthy (a
nonempty string) it is returned at once and the selector is never invoked;
otherwise the selector decides. -/
def scheduleTaskGen (selectNode : EdgeState → EdgeTask → String)
    (s : EdgeState) (t : EdgeTask) : String :=
  match t.options.nodeAffinity with
  | some a => if a = "" then selectNode s t else a
  | none => selectNode s t

/-- EdgeTaskScheduler.scheduleTask as the source wires it: affinity check,
then EdgeLoadBalancer.selectOptimalNode. -/
def scheduleTask (s : EdgeState) (t : EdgeTask) : String :=
  scheduleTaskGen selectOptimalNode s t

/-- Result of the JavaScript expression priorities[priority] || 5: either a
numeric weight, or a truthy member inherited from Object.prototype (a
function such as toString, or the __proto__ object itself), which the
or-else does not replace because it is truthy. -/
inductive PriorityResult where
  | num : Nat → PriorityResult
  | inherited : String → PriorityResult
deriving DecidableEq

/-- The member names every plain JavaScript object literal inherits from
Object.prototype; looking any of them up on the object yields a truthy
function or object, never undefined. -/
def objectPrototypeKeys : List String :=
  ["constructor", "hasOwnProperty", "isPrototypeOf", "propertyIsEnumerable",
   "toLocaleString", "toString", "valueOf", "__proto__", "__defineGetter__",
   "__defineSetter__", "__lookupGetter__", "__lookupSetter__"]

/-- VentaroEdgeComputing.getPriorityValue: the lookup priorities[priority]
followed by the or-else default 5. An own key of the object literal yields
its numeric weight; a key naming an inherited Object.prototype member
yields that truthy member, so the or-else does not fire; any other key, and
an undefined argument, yields undefined and hence the default 5. -/
def getPriorityValue (priority : Option String) : PriorityResult :=
  let priorities : List (String × Nat) :=
    [("low", 1), ("normal", 5), ("high", 10), ("critical", 20)]
  match priority with
  | some p =>
    match mapGet priorities p with
    | some v => PriorityResult.num v
    | none =>
      if objectPrototypeKeys.contains p then PriorityResult.inherited p
      else PriorityResult.num 5
  | none => PriorityResult.num 5

/-- EdgeOptimizer.optimizeResources: only on an enabled cluster master;
fork one worker when average CPU exceeds 80 and the worker count is below
os.cpus().length; otherwise kill the first worker when average CPU is
below 30 and more than one worker runs; otherwise do nothing. The forked
worker id is modelled by a fresh-id counter; killing removes the first
entry of the insertion-ordered worker map, that is the head of the list. -/
def optimizeResources (s : EdgeState) : EdgeState :=
  if s.clusterEnabled && s.isMaster then
    if 80 < s.cpuUsage ∧ s.workers.length < s.numCpus then
      { s with workers := s.workers ++ [s.nextWorkerId]
               nextWorkerId := s.nextWorkerId + 1 }
    else if s.cpuUsage < 30 ∧ 1 < s.workers.length then
      { s with workers := s.workers.tail }
    else s
  else s

/-- Modelled from the spec: configuration of the Task Queue Adapter. The
adapter itself is not in the repository source: initializeQueues delegates
retry handling to the external Bull library, passing attempts =
config.processing.retryAttempts (default 3) and an exponential backoff with
base delay 2000 ms, so the adapter contract of spec section 4.4 is modelled
here; maxDelay is the cap the spec puts on the backoff contribution. -/
structure QueueConfig where
  retryAttempts : Nat
  baseDelay : Nat
  maxDelay : Nat
deriving DecidableEq

/-- Modelled from the spec: a queued task as the Task Queue Adapter sees it,
its id and retry count. -/
structure QTask where
  id : String
  retryCount : Nat
deriving DecidableEq

/-- Modelled from the spec: the observable state of the Task Queue Adapter:
the pending queue (tasks paired with their re-enqueue backoff delay), the
dead-letter store, and the ids for which a task-failed event was emitted. -/
structure QueueState where
  queue : List (QTask × Nat)
  deadLetter : List QTask
  failedEvents : List String
deriving DecidableEq

/-- Modelled from the spec: nack increments the retry count and re-enqueues
with exponential backoff (base delay times 2 to the retry count, capped)
until retryAttempts is exhausted, then moves the task to the dead-letter
store and emits a task-failed event. -/
def nack (cfg : QueueConfig) (qs : QueueState) (t : QTask) : QueueState :=
  let r := t.retryCount + 1
  if cfg.retryAttempts < r then
    { qs with deadLetter := qs.deadLetter ++ [⟨t.id, r⟩]
              failedEvents := qs.failedEvents ++ [t.id] }
  else
    { qs with queue :=
        qs.queue ++ [(⟨t.id, r⟩, min (cfg.baseDelay * 2 ^ r) cfg.maxDelay)] }

/-- An empty capability record, for peers that advertise nothing. -/
def capsNone : Capabilities := ⟨[], [], [], []⟩

/-- A capability record advertising only the image-processing queue type. -/
def capsImage : Capabilities := ⟨[], ["image-processing"], [], []⟩

/-- State for claim C1: an isolated local node with no queues and no models,
so that no live node advertises any task type at all. -/
def st1 : EdgeState :=
  { nodeId := "edge-A", meshClients := []
    cpuUsage := 0, memoryUsage := 0, totalmem := 100
    processingQueues := [], nodeLoads := [], aiModelKeys := []
    clusterEnabled := false, isMaster := false
    workers := [], nextWorkerId := 0, numCpus := 1 }

/-- Task for claim C1: an image-processing task with no affinity. -/
def t1 : EdgeTask := ⟨"image-processing", ⟨some "normal", none⟩⟩

/-- State for claim C2: a live mesh peer B2 advertising image-processing. -/
def st2 : EdgeState :=
  { nodeId := "A2", meshClients := [("B2", capsImage)]
    cpuUsage := 0, memoryUsage := 0, totalmem := 100
    processingQueues := [("image-processing", 0)]
    nodeLoads := [("B2", ⟨0, 0, 0⟩)], aiModelKeys := []
    clusterEnabled := false, isMaster := false
    workers := [], nextWorkerId := 0, numCpus := 1 }

/-- Task for claim C2: image-processing pinned to the live capable peer B2. -/
def t2 : EdgeTask := ⟨"image-processing", ⟨some "normal", some "B2"⟩⟩

/-- State for claim C3: no mesh peers at all, so the affinity target is
neither alive nor capable. -/
def st3 : EdgeState :=
  { nodeId := "A3", meshClients := []
    cpuUsage := 0, memoryUsage := 0, totalmem := 100
    processingQueues := [("image-processing", 0)]
    nodeLoads := [], aiModelKeys := []
    clusterEnabled := false, isMaster := false
    workers := [], nextWorkerId := 0, numCpus := 1 }

/-- Task for claim C3: pinned to the node ghost, which is dead and unknown. -/
def t3 : EdgeTask := ⟨"image-processing", ⟨none, some "ghost"⟩⟩

/-- State for claim C4's witness: one remote load entry, all loads
nonnegative. -/
def st4 : EdgeState :=
  { nodeId := "A4", meshClients := [("B4", capsImage)]
    cpuUsage := 10, memoryUsage := 20, totalmem := 100
    processingQueues := [("image-processing", 2)]
    nodeLoads := [("B4", ⟨10, 20, 5⟩)], aiModelKeys := []
    clusterEnabled := false, isMaster := false
    workers := [], nextWorkerId := 0, numCpus := 1 }

/-- Task for claim C4's witness. -/
def t4 : EdgeTask := ⟨"image-processing", ⟨some "normal", none⟩⟩

/-- State for claim C5, the spec scenario: local node A at CPU 10 percent,
memory 20 percent (20 of 100 total), empty image-processing queue; remote
node B recorded at cpu 10, memory 20, queue 0. -/
def st5 : EdgeState :=
  { nodeId := "A", meshClients := [("B", capsImage)]
    cpuUsage := 10, memoryUsage := 20, totalmem := 100
    processingQueues := [("image-processing", 0)]
    nodeLoads := [("B", ⟨10, 20, 0⟩)], aiModelKeys := []
    clusterEnabled := false, isMaster := false
    workers := [], nextWorkerId := 0, numCpus := 1 }

/-- Task for claim C5: an image-processing task with no affinity. -/
def t5 : EdgeTask := ⟨"image-processing", ⟨some "normal", none⟩⟩

/-- State for claim C6's counterexample: local node L heavily loaded (score
10), mesh peers inserted in the order Z then A, both remote with identical
recorded loads (score 70 each), so the maximal score is tied between Z and
A and the lexicographically lowest id is A. -/
def st6 : EdgeState :=
  { nodeId := "L", meshClients := [("Z", capsImage), ("A", capsImage)]
    cpuUsage := 90, memoryUsage := 0, totalmem := 100
    processingQueues := [("image-processing", 0)]
    nodeLoads := [("Z", ⟨10, 10, 0⟩), ("A", ⟨10, 10, 0⟩)], aiModelKeys := []
    clusterEnabled := false, isMaster := false
    workers := [], nextWorkerId := 0, numCpus := 1 }

/-- Task for claim C6's counterexample. -/
def t6 : EdgeTask := ⟨"image-processing", ⟨some "normal", none⟩⟩

/-- State for claim C6's amended-theorem witness: local LW at score 40, mesh
peers in insertion order BW (score 50), MW and NW (both score 90), so the
maximal score is tied between MW and NW and a lower-scoring peer precedes
them. -/
def stW6 : EdgeState :=
  { nodeId := "LW"
    meshClients := [("BW", capsImage), ("MW", capsImage), ("NW", capsImage)]
    cpuUsage := 60, memoryUsage := 0, totalmem := 100
    processingQueues := [("image-processing", 0)]
    nodeLoads := [("BW", ⟨20, 20, 0⟩), ("MW", ⟨0, 0, 0⟩), ("NW", ⟨0, 0, 0⟩)]
    aiModelKeys := []
    clusterEnabled := false, isMaster := false
    workers := [], nextWorkerId := 0, numCpus := 1 }

/-- Task for claim C6's witness. -/
def tW6 : EdgeTask := ⟨"image-processing", ⟨some "normal", none⟩⟩

/-- State for claim C7: the local node edge-7 and the peer R7 both advertise
only audio-processing, so no live node advertises video-processing. -/
def st7 : EdgeState :=
  { nodeId := "edge-7", meshClients := [("R7", ⟨[], ["audio-processing"], [], []⟩)]
    cpuUsage := 0, memoryUsage := 0, totalmem := 100
    processingQueues := [("audio-processing", 0)]
    nodeLoads := [], aiModelKeys := []
    clusterEnabled := false, isMaster := false
    workers := [], nextWorkerId := 0, numCpus := 1 }

/-- Task for claim C7: a video-processing task nobody advertises. -/
def t7 : EdgeTask := ⟨"video-processing", ⟨some "normal", none⟩⟩

/-- Queue configuration for claim C8's witness: the source defaults,
retryAttempts 3 and base delay 2000 ms, with a 60000 ms cap. -/
def qcfg8 : QueueConfig := ⟨3, 2000, 60000⟩

/-- Empty adapter state for claim C8's witness. -/
def qs8 : QueueState := ⟨[], [], []⟩

/-- Task for claim C8's witness, already at retry count 3. -/
def qt8 : QTask := ⟨"task-8", 3⟩

/-- State for claim C9's witness: an enabled cluster master at CPU 90 with
one worker of two allowed. -/
def st9 : EdgeState :=
  { nodeId := "A9", meshClients := []
    cpuUsage := 90, memoryUsage := 0, totalmem := 100
    processingQueues := [], nodeLoads := [], aiModelKeys := []
    clusterEnabled := true, isMaster := true
    workers := [11], nextWorkerId := 12, numCpus := 2 }

/-- Lookup success means the pair is in the association list. -/
theorem mapGet_mem {α : Type} (l : List (String × α)) (k : String) (v : α)
    (h : mapGet l k = some v) : (k, v) ∈ l := by
  induction l with
  | nil => simp [mapGet] at h
  | cons p rest ih =>
    obtain ⟨k1, v1⟩ := p
    by_cases hk : k = k1
    · subst hk
      simp [mapGet] at h
      rw [← h]
      exact List.mem_cons_self _ _
    · simp [mapGet, hk] at h
      exact List.mem_cons_of_mem _ (ih h)

/-- The selection loop returns the running best or a member of the list. -/
theorem selectLoop_mem (score : String → ℚ) (l : List String)
    (best : String) (bs : ℚ) :
    selectLoop score l best bs = best ∨ selectLoop score l best bs ∈ l := by
  induction l generalizing best bs with
  | nil => left; rfl
  | cons n rest ih =>
    simp only [selectLoop]
    split
    · rcases ih n (score n) with h | h
      · right; rw [h]; exact List.mem_cons_self _ _
      · right; exact List.mem_cons_of_mem _ h
    · rcases ih best bs with h | h
      · left; exact h
      · right; exact List.mem_cons_of_mem _ h

/-- When nothing in the list beats the running best score, the loop keeps
the running best. -/
theorem selectLoop_le (score : String → ℚ) (l : List String)
    (best : String) (bs : ℚ)
    (h : ∀ n ∈ l, score n ≤ bs) : selectLoop score l best bs = best := by
  induction l generalizing best bs with
  | nil => rfl
  | cons n rest ih =>
    simp only [selectLoop]
    rw [if_neg (not_lt.mpr (h n (List.mem_cons_self _ _)))]
    exact ih best bs fun m hm => h m (List.mem_cons_of_mem _ hm)

/-- The loop returns the first listed node attaining the maximum: when
every node before m, the running best included, scores strictly below m
and every node after m scores at most m, the loop returns m. -/
theorem selectLoop_first_max (score : String → ℚ) (pre : List String)
    (m : String) (rest : List String)
    (hrest : ∀ n ∈ rest, score n ≤ score m) :
    ∀ (best : String) (bs : ℚ), bs < score m →
      (∀ n ∈ pre, score n < score m) →
      selectLoop score (pre ++ m :: rest) best bs = m := by
  induction pre with
  | nil =>
    intro best bs hbs hpre
    simp only [List.nil_append, selectLoop]
    rw [if_pos hbs]
    exact selectLoop_le score rest m (score m) hrest
  | cons p pre ih =>
    intro best bs hbs hpre
    simp only [List.cons_append, selectLoop]
    split
    · exact ih p (score p) (hpre p (List.mem_cons_self _ _))
        fun n hn => hpre n (List.mem_cons_of_mem _ hn)
    · exact ih best bs hbs fun n hn => hpre n (List.mem_cons_of_mem _ hn)

/-- A truthy nodeAffinity short-circuits scheduling for every selector. -/
theorem scheduleTaskGen_affinity (f : EdgeState → EdgeTask → String)
    (s : EdgeState) (t : EdgeTask) (a : String)
    (ha : t.options.nodeAffinity = some a) (hne : a ≠ "") :
    scheduleTaskGen f s t = a := by
  unfold scheduleTaskGen
  rw [ha]
  simp [hne]

/-- C2: a task pinned by nodeAffinity to a live node advertising its type is
scheduled on exactly that node, and the load balancer is never invoked: the
result is the affinity id for every possible selector function, so no call
to selectOptimalNode or calculateNodeScore can influence it. -/
theorem C2_affinity_live_capable (s : EdgeState) (t : EdgeTask) (a : String)
    (ha : t.options.nodeAffinity = some a) (hne : a ≠ "")
    (halive : nodeAlive s a = true)
    (hcap : nodeAdvertises s a t.type = true) :
    scheduleTask s t = a ∧ ∀ f, scheduleTaskGen f s t = a :=
  ⟨scheduleTaskGen_affinity selectOptimalNode s t a ha hne,
   fun f => scheduleTaskGen_affinity f s t a ha hne⟩

/-- Witness for C2 at a concrete live capable peer B2. -/
theorem C2_witness :
    t2.options.nodeAffinity = some "B2" ∧ ("B2" : String) ≠ "" ∧
    nodeAlive st2 "B2" = true ∧ nodeAdvertises st2 "B2" t2.type = true ∧
    scheduleTask st2 t2 = "B2" :=
  ⟨rfl, by decide, by decide, by decide,
   (C2_affinity_live_capable st2 t2 "B2" rfl (by decide) (by decide)
     (by decide)).1⟩

/-- C3: a task whose nodeAffinity is a nonempty string is scheduled on that
node unconditionally: no liveness or capability hypothesis is needed, no
error is possible (scheduleTask is a total function into node ids), and the
result is independent of the selector, for dead or incapable targets too. -/
theorem C3_affinity_unchecked (s : EdgeState) (t : EdgeTask) (a : String)
    (ha : t.options.nodeAffinity = some a) (hne : a ≠ "") :
    scheduleTask s t = a ∧ ∀ f, scheduleTaskGen f s t = a :=
  ⟨scheduleTaskGen_affinity selectOptimalNode s t a ha hne,
   fun f => scheduleTaskGen_affinity f s t a ha hne⟩

/-- Witness for C3 at a concrete dead and incapable target ghost. -/
theorem C3_witness :
    nodeAlive st3 "ghost" = false ∧
    nodeAdvertises st3 "ghost" "image-processing" = false ∧
    scheduleTask st3 t3 = "ghost" :=
  ⟨by decide, by decide,
   (C3_affinity_unchecked st3 t3 "ghost" rfl (by decide)).1⟩

/-- Counterexample to C10 as stated: toString is outside the four priority
names, yet getPriorityValue does not return 5: the object-literal lookup
finds the truthy toString member inherited from Object.prototype, so the
or-else default never fires and the inherited member is returned. -/
theorem C10_counterexample :
    getPriorityValue (some "toString") = PriorityResult.inherited "toString" ∧
    getPriorityValue (some "toString") ≠ PriorityResult.num 5 := by
  constructor <;> decide

/-- C10 amended: the table maps low, normal, high, critical to the strictly
increasing weights 1, 5, 10, 20; an absent priority, and every other string
that does not name an inherited Object.prototype member, falls back to the
weight 5 of normal; a string naming an inherited Object.prototype member
(toString, constructor, valueOf, hasOwnProperty and the rest) instead
returns that truthy inherited member, not 5. -/
theorem C10_amended_priority_weights :
    (∀ p : String, p ≠ "low" → p ≠ "normal" → p ≠ "high" → p ≠ "critical" →
      objectPrototypeKeys.contains p = false →
      getPriorityValue (some p) = PriorityResult.num 5) ∧
    (∀ p ∈ objectPrototypeKeys,
      getPriorityValue (some p) = PriorityResult.inherited p) ∧
    getPriorityValue none = PriorityResult.num 5 ∧
    getPriorityValue (some "low") = PriorityResult.num 1 ∧
    getPriorityValue (some "normal") = PriorityResult.num 5 ∧
    getPriorityValue (some "high") = PriorityResult.num 10 ∧
    getPriorityValue (some "critical") = PriorityResult.num 20 ∧
    (1 : Nat) < 5 ∧ (5 : Nat) < 10 ∧ (10 : Nat) < 20 := by
  refine ⟨?_, by decide, by decide, by decide, by decide, by decide,
    by decide, by decide, by decide, by decide⟩
  intro p h1 h2 h3 h4 h5
  simp at h5
  simp [getPriorityValue, mapGet, h1, h2, h3, h4, h5]

/-- Witness for the amended C10: the unrecognized priority urgent falls
back to 5, while the prototype member name valueOf does not. -/
theorem C10_witness :
    getPriorityValue (some "urgent") = PriorityResult.num 5 ∧
    getPriorityValue (some "valueOf") = PriorityResult.inherited "valueOf" :=
  ⟨C10_amended_priority_weights.1 "urgent" (by decide) (by decide)
      (by decide) (by decide) (by decide),
   C10_amended_priority_weights.2.1 "valueOf" (by decide)⟩

/-- Counterexample to C1 as stated: in st1 no live node advertises the
task's type (the candidate set in the specification's sense is empty), yet
scheduleTask does not fail with any error: it returns the local node id.
The code never computes a candidate set and has no NoCapableNodeError. -/
theorem C1_counterexample :
    liveCapableNodes st1 t1.type = [] ∧ scheduleTask st1 t1 = "edge-A" := by
  constructor
  · decide
  · simp [scheduleTask, scheduleTaskGen, selectOptimalNode, selectLoop, t1,
      st1]

/-- C1 amended: when a task has no affinity and no live node advertises its
type, scheduleTask still returns a node id drawn from the unfiltered pool
of the local node and the connected mesh peers (the local node when there
are no peers); it raises no error and touches no task status. -/
theorem C1_amended (s : EdgeState) (t : EdgeTask)
    (haff : t.options.nodeAffinity = none)
    (hempty : liveCapableNodes s t.type = []) :
    scheduleTask s t ∈ s.nodeId :: s.meshClients.map (fun p => p.1) := by
  unfold scheduleTask scheduleTaskGen
  rw [haff]
  unfold selectOptimalNode
  rcases selectLoop_mem (fun n => calculateNodeScore s n t)
      (s.meshClients.map (fun p => p.1) ++ [s.nodeId]) s.nodeId
      (calculateNodeScore s s.nodeId t) with h | h
  · rw [h]; exact List.mem_cons_self _ _
  · rcases List.mem_append.mp h with h2 | h2
    · exact List.mem_cons_of_mem _ h2
    · simp only [List.mem_singleton] at h2
      rw [h2]; exact List.mem_cons_self _ _

/-- Witness for the amended C1 at the concrete empty-candidate state st1. -/
theorem C1_witness :
    t1.options.nodeAffinity = none ∧ liveCapableNodes st1 t1.type = [] ∧
    scheduleTask st1 t1 ∈ st1.nodeId :: st1.meshClients.map (fun p => p.1) :=
  ⟨rfl, by decide, C1_amended st1 t1 rfl (by decide)⟩

/-- C4: the load score is deterministic (a pure function of the node
snapshot and task, so two runs agree definitionally) and, whenever the
snapshot is sane (nonnegative utilizations, positive total memory,
nonnegative recorded remote loads), lies in the closed interval 0 to 100;
the floor at 0 holds unconditionally by the final Math.max. -/
theorem C4_score_deterministic_bounded (s : EdgeState) (nid : String)
    (t : EdgeTask)
    (hcpu : 0 ≤ s.cpuUsage) (hmem : 0 ≤ s.memoryUsage) (htot : 0 < s.totalmem)
    (hloads : ∀ p ∈ s.nodeLoads,
      0 ≤ p.2.cpu ∧ 0 ≤ p.2.memory ∧ 0 ≤ p.2.queue) :
    calculateNodeScore s nid t = calculateNodeScore s nid t ∧
    0 ≤ calculateNodeScore s nid t ∧ calculateNodeScore s nid t ≤ 100 := by
  refine ⟨rfl, ?_, ?_⟩
  · simp only [calculateNodeScore]
    exact le_max_left 0 _
  · simp only [calculateNodeScore]
    apply max_le (by norm_num)
    have hdiv : 0 ≤ s.memoryUsage / s.totalmem * 100 :=
      mul_nonneg (div_nonneg hmem (le_of_lt htot)) (by norm_num)
    split
    · split
      next waiting heq =>
        have hwait : (0:ℚ) ≤ (waiting : ℚ) := Nat.cast_nonneg _
        linarith
      next heq => linarith
    · rcases hm : mapGet s.nodeLoads nid with _ | load
      · simp only [hm, Option.getD]
        norm_num
      · obtain ⟨hc, hmm, hq⟩ := hloads (nid, load) (mapGet_mem _ _ _ hm)
        simp only [hm, Option.getD] at *
        linarith

/-- Witness for C4 at the concrete remote node B4 of st4. -/
theorem C4_witness :
    0 ≤ st4.cpuUsage ∧ 0 ≤ st4.memoryUsage ∧ 0 < st4.totalmem ∧
    0 ≤ calculateNodeScore st4 "B4" t4 ∧
    calculateNodeScore st4 "B4" t4 ≤ 100 := by
  have h := C4_score_deterministic_bounded st4 "B4" t4 (by norm_num [st4])
    (by norm_num [st4]) (by norm_num [st4])
    (by
      rintro p hp
      simp only [st4, List.mem_singleton] at hp
      subst hp
      refine ⟨by norm_num, by norm_num, by norm_num⟩)
  exact ⟨by norm_num [st4], by norm_num [st4], by norm_num [st4],
    h.2.1, h.2.2⟩

/-- C5: the specification scenario holds on the code: local node A at CPU
10, memory 20 of 100, empty queue scores 70; remote node B with recorded
cpu 10, memory 20, queue 0 pays the fixed network penalty 10 and scores
60; the selection picks A, and scheduleTask returns A. -/
theorem C5_scenario_seventy_sixty :
    calculateNodeScore st5 "A" t5 = 70 ∧
    calculateNodeScore st5 "B" t5 = 60 ∧
    selectOptimalNode st5 t5 = "A" ∧
    scheduleTask st5 t5 = "A" := by
  have hA : calculateNodeScore st5 "A" t5 = 70 := by
    norm_num [calculateNodeScore, st5, t5, mapGet]
  have hB : calculateNodeScore st5 "B" t5 = 60 := by
    have hne : ("B" : String) ≠ "A" := by decide
    norm_num [calculateNodeScore, st5, t5, mapGet, hne]
  have hne : ("B" : String) ≠ "A" := by decide
  refine ⟨hA, hB, ?_, ?_⟩
  · norm_num [selectOptimalNode, selectLoop, calculateNodeScore, st5, t5,
      mapGet, hne]
  · norm_num [scheduleTask, scheduleTaskGen, selectOptimalNode, selectLoop,
      calculateNodeScore, st5, t5, mapGet, hne]

/-- Counterexample to C6 as stated: in st6 the maximal score 70 is attained
by both remote peers, the lexicographically lowest of the tied ids is A,
yet the code selects Z, the peer that appears first in the meshClients
insertion order; ties among remotes are NOT broken by lowest id. -/
theorem C6_counterexample :
    calculateNodeScore st6 "A" t6 = calculateNodeScore st6 "Z" t6 ∧
    calculateNodeScore st6 "L" t6 < calculateNodeScore st6 "Z" t6 ∧
    ("A" : String) < "Z" ∧ ("Z" : String) ≠ "A" ∧
    selectOptimalNode st6 t6 = "Z" := by
  have hZL : ("Z" : String) ≠ "L" := by decide
  have hAL : ("A" : String) ≠ "L" := by decide
  have hZA : ("Z" : String) ≠ "A" := by decide
  refine ⟨?_, ?_, ?_, by decide, ?_⟩
  case refine_3 => rw [String.lt_iff_toList_lt]; decide
  · norm_num [calculateNodeScore, st6, t6, mapGet, hZL, hAL, hZA]
  · norm_num [calculateNodeScore, st6, t6, mapGet, hZL, hAL, hZA]
  · norm_num [selectOptimalNode, selectLoop, calculateNodeScore, st6, t6,
      mapGet, hZL, hAL, hZA]

/-- C6 amended: ties are broken by preferring the local node (it is the
initial running best and is replaced only on a strictly greater score), and
among remote peers attaining the maximum by the earliest position in the
meshClients insertion order rather than by lowest id, wherever that first
maximal peer sits in the list; selection is a pure function of the
snapshot, so repeated calls on the same candidate set agree. -/
theorem C6_amended_tiebreak (s : EdgeState) (t : EdgeTask) :
    selectOptimalNode s t = selectOptimalNode s t ∧
    ((∀ n ∈ s.meshClients.map (fun p => p.1),
        calculateNodeScore s n t ≤ calculateNodeScore s s.nodeId t) →
      selectOptimalNode s t = s.nodeId) ∧
    (∀ pre m rest, s.meshClients.map (fun p => p.1) = pre ++ m :: rest →
      calculateNodeScore s s.nodeId t < calculateNodeScore s m t →
      (∀ n ∈ pre, calculateNodeScore s n t < calculateNodeScore s m t) →
      (∀ n ∈ rest, calculateNodeScore s n t ≤ calculateNodeScore s m t) →
      selectOptimalNode s t = m) := by
  refine ⟨rfl, ?_, ?_⟩
  · intro h
    unfold selectOptimalNode
    apply selectLoop_le
    intro n hn
    rcases List.mem_append.mp hn with h2 | h2
    · exact h n h2
    · simp only [List.mem_singleton] at h2
      rw [h2]
  · intro pre m rest hm hlt hpre hrest
    unfold selectOptimalNode
    rw [hm, List.append_assoc]
    exact selectLoop_first_max _ pre m (rest ++ [s.nodeId])
      (fun n hn => by
        rcases List.mem_append.mp hn with h2 | h2
        · exact hrest n h2
        · simp only [List.mem_singleton] at h2
          rw [h2]
          exact le_of_lt hlt)
      s.nodeId _ hlt hpre

/-- Witness for the amended C6: in stW6 the peers MW and NW tie at the
maximum 90 above the local 40, behind the lower-scoring peer BW at 50, and
the first-inserted maximal peer MW is selected. -/
theorem C6_witness :
    calculateNodeScore stW6 stW6.nodeId tW6 < calculateNodeScore stW6 "MW" tW6 ∧
    calculateNodeScore stW6 "BW" tW6 < calculateNodeScore stW6 "MW" tW6 ∧
    calculateNodeScore stW6 "NW" tW6 = calculateNodeScore stW6 "MW" tW6 ∧
    selectOptimalNode stW6 tW6 = "MW" := by
  have hBW : ("BW" : String) ≠ "LW" := by decide
  have hMW : ("MW" : String) ≠ "LW" := by decide
  have hNW : ("NW" : String) ≠ "LW" := by decide
  have hMB : ("MW" : String) ≠ "BW" := by decide
  have hNB : ("NW" : String) ≠ "BW" := by decide
  have hNM : ("NW" : String) ≠ "MW" := by decide
  have hlt : calculateNodeScore stW6 stW6.nodeId tW6 <
      calculateNodeScore stW6 "MW" tW6 := by
    norm_num [calculateNodeScore, stW6, tW6, mapGet, hMW, hMB]
  have hpre1 : calculateNodeScore stW6 "BW" tW6 <
      calculateNodeScore stW6 "MW" tW6 := by
    norm_num [calculateNodeScore, stW6, tW6, mapGet, hBW, hMW, hMB]
  have heq : calculateNodeScore stW6 "NW" tW6 =
      calculateNodeScore stW6 "MW" tW6 := by
    norm_num [calculateNodeScore, stW6, tW6, mapGet, hNW, hMW, hMB, hNB, hNM]
  refine ⟨hlt, hpre1, heq,
    (C6_amended_tiebreak stW6 tW6).2.2 ["BW"] "MW" ["NW"] rfl hlt ?_ ?_⟩
  · intro n hn
    simp only [List.mem_singleton] at hn
    subst hn
    exact hpre1
  · intro n hn
    simp only [List.mem_singleton] at hn
    subst hn
    exact le_of_eq heq

/-- C7: evaluation at the failing input: in st7 no live node advertises
video-processing, yet scheduleTask places the task on the local node
edge-7, which does not advertise that type; the selection code never
consults any capability set, although its own comment lists capabilities
among the scoring factors. -/
theorem C7_capability_not_checked :
    liveCapableNodes st7 t7.type = [] ∧
    scheduleTask st7 t7 = "edge-7" ∧
    nodeAdvertises st7 "edge-7" t7.type = false := by
  have hR : ("R7" : String) ≠ "edge-7" := by decide
  refine ⟨by decide, ?_, by decide⟩
  norm_num [scheduleTask, scheduleTaskGen, selectOptimalNode, selectLoop,
    calculateNodeScore, st7, t7, mapGet, hR]

/-- C8: nack strictly increases the retry count by one; below exhaustion it
re-enqueues the task with backoff delay base times 2 to the new retry
count, capped at maxDelay, and neither dead-letters nor emits an event;
once the new retry count exceeds retryAttempts it moves the task to the
dead-letter store and emits a task-failed event, and does not re-enqueue:
dead-lettering happens exactly at exhaustion, never before, never after. -/
theorem C8_nack_retry_deadletter (cfg : QueueConfig) (qs : QueueState)
    (t : QTask) :
    (t.retryCount + 1 ≤ cfg.retryAttempts →
      nack cfg qs t =
        { qs with queue := qs.queue ++
            [(⟨t.id, t.retryCount + 1⟩,
              min (cfg.baseDelay * 2 ^ (t.retryCount + 1)) cfg.maxDelay)] }) ∧
    (cfg.retryAttempts < t.retryCount + 1 →
      nack cfg qs t =
        { qs with deadLetter := qs.deadLetter ++ [⟨t.id, t.retryCount + 1⟩]
                  failedEvents := qs.failedEvents ++ [t.id] }) := by
  constructor
  · intro h
    unfold nack
    rw [if_neg (by omega)]
  · intro h
    unfold nack
    rw [if_pos h]

/-- Witness for C8: with the default three attempts, a task at retry count
three is dead-lettered by the next nack, with its event emitted. -/
theorem C8_witness :
    qcfg8.retryAttempts < qt8.retryCount + 1 ∧
    nack qcfg8 qs8 qt8 =
      { queue := [], deadLetter := [⟨"task-8", 4⟩],
        failedEvents := ["task-8"] } :=
  ⟨by decide, (C8_nack_retry_deadletter qcfg8 qs8 qt8).2 (by decide)⟩

/-- C9: one optimizeResources invocation changes the worker count by at
most one; it grows only under CPU above 80 with room below the cpu-count
cap, shrinks only under CPU below 30 with more than one worker, is the
identity when neither applies, and preserves the bounds one to numCpus. -/
theorem C9_optimizer_bounds (s : EdgeState)
    (h1 : 1 ≤ s.workers.length) (h2 : s.workers.length ≤ s.numCpus) :
    ((optimizeResources s).workers.length = s.workers.length + 1 →
      80 < s.cpuUsage ∧ s.workers.length < s.numCpus) ∧
    ((optimizeResources s).workers.length + 1 = s.workers.length →
      s.cpuUsage < 30 ∧ 1 < s.workers.length) ∧
    (¬(80 < s.cpuUsage ∧ s.workers.length < s.numCpus) →
      ¬(s.cpuUsage < 30 ∧ 1 < s.workers.length) →
      (optimizeResources s).workers = s.workers) ∧
    ((optimizeResources s).workers.length = s.workers.length + 1 ∨
      (optimizeResources s).workers.length + 1 = s.workers.length ∨
      (optimizeResources s).workers.length = s.workers.length) ∧
    1 ≤ (optimizeResources s).workers.length ∧
    (optimizeResources s).workers.length ≤ s.numCpus := by
  unfold optimizeResources
  split
  · split
    · next hadd =>
      obtain ⟨hcpu80, hroom⟩ := hadd
      simp only [List.length_append, List.length_singleton]
      refine ⟨fun _ => ⟨hcpu80, hroom⟩, ?_,
        fun hno _ => absurd ⟨hcpu80, hroom⟩ hno, by tauto, by omega, by omega⟩
      intro hfalse; exfalso; revert hfalse; omega
    · split
      · next hnoadd hrem =>
        obtain ⟨hcpu30, hw⟩ := hrem
        simp only [List.length_tail]
        refine ⟨?_, fun _ => ⟨hcpu30, hw⟩,
          fun _ hno => absurd ⟨hcpu30, hw⟩ hno, by omega, by omega, by omega⟩
        intro hfalse; exfalso; revert hfalse; omega
      · next hnoadd hnorem =>
        refine ⟨?_, ?_, fun _ _ => rfl, by omega, h1, h2⟩
        · intro hfalse; exfalso; revert hfalse; omega
        · intro hfalse; exfalso; revert hfalse; omega
  · refine ⟨?_, ?_, fun _ _ => rfl, by omega, h1, h2⟩
    · intro hfalse; exfalso; revert hfalse; omega
    · intro hfalse; exfalso; revert hfalse; omega

/-- Witness for C9: the enabled master st9 at CPU 90 with one of two
workers; the invocation keeps the count within one and two. -/
theorem C9_witness :
    1 ≤ st9.workers.length ∧ st9.workers.length ≤ st9.numCpus ∧
    1 ≤ (optimizeResources st9).workers.length ∧
    (optimizeResources st9).workers.length ≤ st9.numCpus :=
  ⟨by decide, by decide,
   (C9_optimizer_bounds st9 (by decide) (by decide)).2.2.2.2.1,
   (C9_optimizer_bounds st9 (by decide) (by decide)).2.2.2.2.2⟩
